import Mathlib

/-!
Verification of the financial-assistant bot core: a shallow embedding of the
conversational tool-calling orchestration loop (ai_engine.get_agent_response),
the per-user conversation state handling (main.handle_message / main.start),
and the row-indexed ledger operations (tools.append_to_sheet,
tools.update_specific_row, tools.delete_specific_row, tools.calculate_total).

Modelling conventions:
- The language-model service, JSON argument decoding and the tool handlers are
  external effects; they are passed in as an explicit environment (LoopEnv).
  A Python exception raised by such a call is `HandlerOutcome.raised` /
  `Except.error`; the exception message text is carried as a string.
- The spreadsheet backend is a pure state `SheetState` (the list of data rows,
  each a list of cell strings); the gspread client, credentials and network
  are abstracted away, so theorems describe the race-free single-writer case.
- `datetime.datetime.now()` is passed in as explicit string parameters
  (`now_hms` for "%H:%M:%S", `now_full` for "%Y-%m-%d %H:%M:%S").
- Python numbers handed to f-strings are modelled by their rendered string
  form; Python float arithmetic in `calculate_total` is idealised as exact
  rational arithmetic with round-half-even formatting.
-/

namespace FinBot

/-- Message roles of the OpenAI chat format used by the bot. -/
inductive Role
  | system
  | user
  | assistant
  | tool
deriving DecidableEq, Repr

def Role.isTool : Role → Bool
  | Role.tool => true
  | _ => false

/-- A tool call request emitted by the model: `tool_call.id`,
`tool_call.function.name`, `tool_call.function.arguments` (serialized JSON). -/
structure ToolCall where
  id : String
  function_name : String
  function_arguments : String
deriving DecidableEq, Repr

/-- One entry of `conversation_history`: a chat message dict. `tool_calls`
carries the tool-call metadata of an assistant turn (from `model_dump()`). -/
structure Message where
  role : Role
  content : String
  tool_call_id : Option String := none
  name : Option String := none
  tool_calls : List ToolCall := []
deriving DecidableEq, Repr

/-- The message of `response.choices[0].message` in round 1: its text content
and its (possibly empty, i.e. falsy) list of tool calls. -/
structure ModelTurn where
  content : String
  tool_calls : List ToolCall
deriving DecidableEq, Repr

/-- Failures raised by the OpenAI client: RateLimitError, AuthenticationError,
or any other exception (with its message text). -/
inductive ModelFailure
  | rateLimit
  | authError
  | other (detail : String)
deriving DecidableEq, Repr

/-- Outcome of invoking a tool handler (or of decoding its arguments):
either the returned result string, or a raised exception with its text. -/
inductive HandlerOutcome
  | ok (result : String)
  | raised (errMsg : String)
deriving DecidableEq, Repr

def okValue : HandlerOutcome → String
  | HandlerOutcome.ok s => s
  | HandlerOutcome.raised e => e

/-- The external effects consulted by `get_agent_response`: the two model
calls, `json.loads` on the serialized arguments, and the tool handlers. -/
structure LoopEnv where
  round1 : List Message → Except ModelFailure ModelTurn
  round2 : List Message → Except ModelFailure String
  decodeArgs : String → Except String Unit
  invoke : String → String → HandlerOutcome

/-- The tool names tested by the if/elif dispatch chain in ai_engine.py. -/
def knownToolNames : List String :=
  ["get_sheet_url", "append_to_sheet", "create_calendar_event",
   "list_calendar_events", "update_calendar_event", "delete_calendar_event",
   "delete_last_row", "delete_specific_row", "update_specific_row",
   "calculate_total"]

/-- One iteration body of the dispatch loop: `json.loads` the arguments (which
may raise), then run the if/elif chain; a name not in the chain leaves the
initial value "Error: Unknown tool" in place. -/
def processCall (env : LoopEnv) (tc : ToolCall) : HandlerOutcome :=
  match env.decodeArgs tc.function_arguments with
  | Except.error e => HandlerOutcome.raised e
  | Except.ok _ =>
    if knownToolNames.contains tc.function_name then
      env.invoke tc.function_name tc.function_arguments
    else
      HandlerOutcome.ok ("Error: Unknown tool")

/-- The `tool`-role message appended for one executed tool call. -/
def toolResultMessage (tc : ToolCall) (result : String) : Message :=
  { role := Role.tool, content := result,
    tool_call_id := some tc.id, name := some tc.function_name,
    tool_calls := [] }

/-- The `for tool_call in response_message.tool_calls` loop: appends one tool
message per successfully processed call; a raised exception aborts the loop
(it propagates to the function-level `except`), reported in the second
component. -/
def runToolCalls (env : LoopEnv) : List ToolCall → List Message →
    List Message × Option String
  | [], hist => (hist, none)
  | tc :: rest, hist =>
    match processCall env tc with
    | HandlerOutcome.ok res =>
        runToolCalls env rest (hist ++ [toolResultMessage tc res])
    | HandlerOutcome.raised e => (hist, some e)

/-- The assistant message `response_message.model_dump()` appended before the
tool calls execute. -/
def assistantTurnMessage (turn : ModelTurn) : Message :=
  { role := Role.assistant, content := turn.content,
    tool_call_id := none, name := none, tool_calls := turn.tool_calls }

/-- The advisory strings of the three `except` clauses of
`get_agent_response`. -/
def failureReply : ModelFailure → String
  | ModelFailure.rateLimit =>
      "⚠️ Error: OpenAI API Quota Exceeded (429). Please check your billing details at platform.openai.com."
  | ModelFailure.authError =>
      "⚠️ Error: OpenAI API Key is invalid. Please check your .env file."
  | ModelFailure.other d => "⚠️ System error: " ++ d

/-- Result of one orchestration pass: the conversation history as mutated in
place (Python list `append`), the returned reply text, and how many model
invocations were attempted (1 or 2). -/
structure AgentResult where
  history : List Message
  reply : String
  modelCalls : Nat
deriving DecidableEq, Repr

/-- Shallow embedding of `ai_engine.get_agent_response`. -/
def get_agent_response (env : LoopEnv) (conversation_history : List Message) :
    AgentResult :=
  match env.round1 conversation_history with
  | Except.error f =>
      { history := conversation_history, reply := failureReply f, modelCalls := 1 }
  | Except.ok turn =>
    if turn.tool_calls.isEmpty then
      { history := conversation_history, reply := turn.content, modelCalls := 1 }
    else
      match runToolCalls env turn.tool_calls
          (conversation_history ++ [assistantTurnMessage turn]) with
      | (hist2, some e) =>
          { history := hist2, reply := failureReply (ModelFailure.other e),
            modelCalls := 1 }
      | (hist2, none) =>
        match env.round2 hist2 with
        | Except.ok reply => { history := hist2, reply := reply, modelCalls := 2 }
        | Except.error f =>
            { history := hist2, reply := failureReply f, modelCalls := 2 }

/-!
Conversation state handling from main.py: `start` installs a fresh history
`[system prompt]`; `handle_message` lazily initialises an absent history the
same way, appends the user turn, runs `get_agent_response` (which appends in
place), and appends the assistant reply.
-/

/-- The Conversation invariant of the spec: at least one message, and the
first message has role `system`. -/
def convInvariant (c : List Message) : Prop :=
  c ≠ [] ∧ c.head?.map Message.role = some Role.system

/-- The fresh history installed by `start` and by `handle_message`'s lazy
initialisation: just the rendered system prompt. -/
def initConversation (sysContent : String) : List Message :=
  [{ role := Role.system, content := sysContent }]

def userMessage (t : String) : Message := { role := Role.user, content := t }

def assistantReplyMessage (t : String) : Message :=
  { role := Role.assistant, content := t }

/-- The evolution of `user_conversations[user_id]` across one successful
`handle_message` call: lazy init when absent, append the user turn, the
in-place appends of `get_agent_response`, append the assistant reply. -/
def handle_message_conversation (env : LoopEnv) (sysContent : String)
    (stored : Option (List Message)) (userText : String) : List Message :=
  let conv0 := match stored with
    | none => initConversation sysContent
    | some c => c
  let conv1 := conv0 ++ [userMessage userText]
  let r := get_agent_response env conv1
  r.history ++ [assistantReplyMessage r.reply]

/-!
Ledger operations from tools.py. The spreadsheet is the list of its data
rows; `get_all_values` is `rows`, `append_row` appends, `delete_rows i`
removes the 1-based row `i`, `update` writes a row range back.
-/

/-- The spreadsheet state: `get_all_values()` as a list of rows of cells. -/
structure SheetState where
  rows : List (List String)
deriving DecidableEq, Repr

/-- Python truthiness of an optional string argument (`if date:` etc.):
true exactly when present and non-empty. -/
def optTruthy : Option String → Bool
  | none => false
  | some s => !s.isEmpty

/-- The timestamp cell computed by `append_to_sheet`: the supplied (truthy)
date with the current time of day appended, else the full current
timestamp. -/
def appendTimestamp (date : Option String) (now_hms now_full : String) : String :=
  match date with
  | some d => if d.isEmpty then now_full else d ++ " " ++ now_hms
  | none => now_full

/-- Shallow embedding of `tools.append_to_sheet`. `amount` is the rendered
decimal form of the numeric argument; `now_hms` / `now_full` stand for the
two `datetime.now().strftime` calls. -/
def append_to_sheet (item_name : String) (amount : String) (category : String)
    (date : Option String) (currency : String)
    (note : String) (now_hms : String) (now_full : String)
    (s : SheetState) : SheetState × String :=
  let timestamp := appendTimestamp date now_hms now_full
  let amount_str := amount ++ currency
  let row_data := [timestamp, item_name, amount_str, category, note]
  let existing_rows := s.rows.length
  let row_id := existing_rows + 1
  let s2 : SheetState := { rows := s.rows ++ [row_data] }
  let date_only := (timestamp.splitOn (" ")).headD timestamp
  (s2, "Saved: " ++ date_only ++ " #" ++ toString row_id ++ " " ++ item_name
    ++ " " ++ amount_str ++ " (" ++ category ++ ")")

/-- Shallow embedding of `tools.delete_specific_row`. `row_id` is the
model-supplied integer. When `row_id` passes the slack check but exceeds the
data row count, `delete_rows` removes a blank grid row past the data (the
grid is assumed to extend at least 5 rows past the data), so the data rows
are unchanged and the call still reports success. -/
def delete_specific_row (row_id : Int) (s : SheetState) : SheetState × String :=
  let n : Int := s.rows.length
  if row_id < 1 ∨ n + 5 < row_id then
    (s, "⚠️ Invalid Row ID: " ++ toString row_id ++ ". (Max is "
      ++ toString s.rows.length ++ ")")
  else if row_id ≤ n then
    ({ rows := s.rows.eraseIdx (row_id.toNat - 1) },
      "✅ Deleted record #" ++ toString row_id ++ ".")
  else
    (s, "✅ Deleted record #" ++ toString row_id ++ ".")

/-- Pad the fetched row with empty strings up to the 5 tracked columns
(the `while len(current_row) < 5` loop). -/
def padTo5 (r : List String) : List String :=
  r ++ List.replicate (5 - r.length) ""

/-- Shallow embedding of `tools.update_specific_row`. Optional numeric
`amount` is carried as its rendered string. `sheet.get("A_:E_")` returns the
row with trailing blank cells trimmed (and an empty range when every cell is
blank, which is the `not cell_values or not cell_values[0]` branch); since
the while-loop immediately pads the trimmed row back to 5 cells, fetching
then padding equals padding the stored row, which is how it is written here.
Row 0 is rejected by the backend (invalid range), modelled with an abstracted
exception text. Rows are assumed to have at most the 5 tracked columns. -/
def update_specific_row (row_id : Nat) (item_name : Option String)
    (amount : Option String) (category : Option String)
    (date : Option String) (currency : String)
    (note : Option String) (now_hms : String)
    (s : SheetState) : SheetState × String :=
  if row_id = 0 then
    (s, "❌ Failed to update: invalid range")
  else
    match s.rows.get? (row_id - 1) with
    | none => (s, "⚠️ Row " ++ toString row_id ++ " seems empty or invalid.")
    | some r =>
      if r.all String.isEmpty then
        (s, "⚠️ Row " ++ toString row_id ++ " seems empty or invalid.")
      else
        let cur0 := padTo5 r
        let cur1 := if optTruthy date then
            cur0.set 0 ((date.getD ("")) ++ " " ++ now_hms)
          else cur0
        let cur2 := if optTruthy item_name then
            cur1.set 1 (item_name.getD (""))
          else cur1
        let cur3 := match amount with
          | some a => cur2.set 2 (a ++ currency)
          | none => cur2
        let cur4 := if optTruthy category then
            cur3.set 3 (category.getD (""))
          else cur3
        let cur5 := if optTruthy note then
            cur4.set 4 (note.getD (""))
          else cur4
        ({ rows := s.rows.set (row_id - 1) cur5 },
          "✅ Updated record #" ++ toString row_id ++ ": "
            ++ cur5.getD 1 ("") ++ " " ++ cur5.getD 2 ("") ++ " ("
            ++ cur5.getD 3 ("") ++ ")")

/-!
Embedding of `tools.calculate_total`: date parsing mirrors `strptime(_, "%Y-%m-%d")`
(4-digit year, 1-2 digit month and day, calendar-valid, whole string
consumed); amount parsing mirrors `re.sub` cleaning, comma-to-dot, `float()`.
`\d` is modelled as the ASCII digits. A parsed date is encoded as the key
`y * 10000 + m * 100 + d`, whose order agrees with the datetime order used by
the comparisons (the end bound sits at 23:59:59 of its day, row dates at
midnight, so both bounds are inclusive on whole days). Python float
arithmetic is idealised as exact fraction arithmetic over `Frac`
(an integer numerator with a positive power-of-ten denominator, never
normalised, so all operations are plain integer arithmetic).
-/

/-- An exact unnormalised fraction: `num / den` with `den` positive. -/
structure Frac where
  num : Int
  den : Nat
deriving DecidableEq, Repr

def Frac.add (a b : Frac) : Frac :=
  { num := a.num * (b.den : Int) + b.num * (a.den : Int), den := a.den * b.den }

def Frac.neg (a : Frac) : Frac := { num := -a.num, den := a.den }

def natOfDigits (cs : List Char) : Nat :=
  cs.foldl (fun n c => n * 10 + (c.toNat - 48)) 0

def allDigits (cs : List Char) : Bool := cs.all Char.isDigit

def isLeapYear (y : Nat) : Bool :=
  y % 4 == 0 && (y % 100 != 0 || y % 400 == 0)

def daysInMonth (y m : Nat) : Nat :=
  if m = 2 then (if isLeapYear y then 29 else 28)
  else if m = 4 ∨ m = 6 ∨ m = 9 ∨ m = 11 then 30
  else 31

/-- `cs.split(sep)` on character lists (Python `str.split` with an explicit
single-character separator). -/
def splitOnChar (sep : Char) : List Char → List (List Char)
  | [] => [[]]
  | c :: rest =>
    let r := splitOnChar sep rest
    if c = sep then [] :: r
    else
      match r with
      | [] => [[c]]
      | h :: t => (c :: h) :: t

/-- `datetime.strptime(_, "%Y-%m-%d")` over the characters, as the encoded
day key; `none` for ValueError. -/
def parseStrictDateChars (cs : List Char) : Option Nat :=
  match splitOnChar ('-') cs with
  | [ys, ms, ds] =>
    if allDigits ys ∧ ys.length = 4
        ∧ allDigits ms ∧ 1 ≤ ms.length ∧ ms.length ≤ 2
        ∧ allDigits ds ∧ 1 ≤ ds.length ∧ ds.length ≤ 2 then
      let y := natOfDigits ys
      let m := natOfDigits ms
      let d := natOfDigits ds
      if 1 ≤ y ∧ 1 ≤ m ∧ m ≤ 12 ∧ 1 ≤ d ∧ d ≤ daysInMonth y m then
        some (y * 10000 + m * 100 + d)
      else none
    else none
  | _ => none

/-- `datetime.strptime(s, "%Y-%m-%d")` as the encoded day key. -/
def parseStrictDate (s : String) : Option Nat :=
  parseStrictDateChars s.data

/-- `re.sub(r'[^\d.,-]', '', s).replace(',', '.')` over the characters. -/
def cleanAmount (s : String) : List Char :=
  (s.data.filter
      (fun c => c.isDigit || c == '.' || c == ',' || c == '-')).map
    (fun c => if c == ',' then '.' else c)

/-- `float(t)` on a sign-free character list over digits and dots: digits
with at most one dot and at least one digit overall. -/
def parseUnsignedFloat (t : List Char) : Option Frac :=
  match splitOnChar ('.') t with
  | [ip] =>
    if 1 ≤ ip.length ∧ allDigits ip then
      some { num := (natOfDigits ip : Int), den := 1 }
    else none
  | [ip, fp] =>
    if allDigits ip ∧ allDigits fp ∧ 1 ≤ ip.length + fp.length then
      some { num := ((natOfDigits ip * 10 ^ fp.length + natOfDigits fp : Nat) : Int),
             den := 10 ^ fp.length }
    else none
  | _ => none

/-- `float()` on a cleaned amount character list (the only possible
characters are digits, dots and minus signs): a single optional leading
minus sign. -/
def parseCleanedFloat (cs : List Char) : Option Frac :=
  match cs with
  | [] => none
  | c :: rest =>
    if c = '-' then (parseUnsignedFloat rest).map Frac.neg
    else parseUnsignedFloat (c :: rest)

/-- `row_date_dt < start_dt` for the row's day key. -/
def beforeStart (sb : Option Nat) (key : Nat) : Bool :=
  match sb with
  | some k => decide (key < k)
  | none => false

/-- `row_date_dt > end_dt` for the row's day key (the end bound is moved to
23:59:59, so this is strict inequality on day keys). -/
def afterEnd (eb : Option Nat) (key : Nat) : Bool :=
  match eb with
  | some k => decide (k < key)
  | none => false

/-- The `for row in all_values` accumulation loop of `calculate_total`, with
each `continue` as a recursive call on the remaining rows; `date_str[:10]`
is the first 10 characters of the row's first cell. -/
def totalLoop (sb eb : Option Nat) : List (List String) → Frac → Frac
  | [], total => total
  | row :: rest, total =>
    if row.length < 3 then totalLoop sb eb rest total
    else
      match parseStrictDateChars ((row.headD ("")).data.take 10) with
      | none => totalLoop sb eb rest total
      | some key =>
        if beforeStart sb key then totalLoop sb eb rest total
        else if afterEnd eb key then totalLoop sb eb rest total
        else
          match parseCleanedFloat (cleanAmount (row.getD 2 (""))) with
          | none => totalLoop sb eb rest total
          | some v => totalLoop sb eb rest (total.add v)

/-- Parsing of one optional range bound: `none` when absent or falsy (no
bound applied), `some key` when it parses, outer `none` when `strptime`
raises (caught by the function-level `except`, whose exception text is
abstracted). -/
def parseBound (o : Option String) : Option (Option Nat) :=
  match o with
  | none => some none
  | some t =>
    if t.isEmpty then some none
    else (parseStrictDate t).map some

/-- Round-half-even of `num / den` (`den` positive) to an integer, the
rounding of `f"{x:.2f}"` idealised over exact fractions. -/
def roundHalfEven (num : Int) (den : Nat) : Int :=
  let f : Int := Int.fdiv num (den : Int)
  let r : Int := num - f * (den : Int)
  if 2 * r < (den : Int) then f
  else if (den : Int) < 2 * r then f + 1
  else if f % 2 = 0 then f
  else f + 1

/-- `f"{q:.2f}"` idealised over exact fractions. -/
def formatTwo (q : Frac) : String :=
  let cents : Int := roundHalfEven (100 * q.num) q.den
  let sign := if cents < 0 then "-" else ""
  let a := cents.natAbs
  let r := a % 100
  sign ++ toString (a / 100) ++ "."
    ++ (if r < 10 then "0" ++ toString r else toString r)

/-- Shallow embedding of `tools.calculate_total`. A malformed provided bound
makes `strptime` raise, caught by the function-level `except`; its exception
text is abstracted. -/
def calculate_total (start_date end_date : Option String) (s : SheetState) :
    String :=
  if s.rows.length ≤ 1 then "0.00 (Sheet empty)"
  else
    match parseBound start_date with
    | none => "Error: time data does not match format Y-m-d"
    | some sb =>
      match parseBound end_date with
      | none => "Error: time data does not match format Y-m-d"
      | some eb => formatTwo (totalLoop sb eb s.rows { num := 0, den := 1 })

/-- Specification-side per-row contribution: the parsed amount of a row whose
leading date parses and falls inside the bounds, `none` otherwise. -/
def rowIncludedValue (sb eb : Option Nat) (row : List String) : Option Frac :=
  if row.length < 3 then none
  else
    match parseStrictDateChars ((row.headD ("")).data.take 10) with
    | none => none
    | some key =>
      if beforeStart sb key then none
      else if afterEnd eb key then none
      else parseCleanedFloat (cleanAmount (row.getD 2 ("")))

/-!
Helper lemmas about the orchestration loop.
-/

theorem runToolCalls_all_ok (env : LoopEnv) (calls : List ToolCall) :
    ∀ hist : List Message,
    (∀ tc ∈ calls, ∃ s, processCall env tc = HandlerOutcome.ok s) →
    runToolCalls env calls hist =
      (hist ++ calls.map
        (fun tc => toolResultMessage tc (okValue (processCall env tc))), none) := by
  induction calls with
  | nil => intro hist _; simp [runToolCalls]
  | cons tc rest ih =>
    intro hist h
    obtain ⟨s, hs⟩ := h tc (List.mem_cons_self _ _)
    have hrest := ih (hist ++ [toolResultMessage tc s])
      (fun tc2 htc2 => h tc2 (List.mem_cons_of_mem _ htc2))
    simp only [runToolCalls, hs, hrest, List.map_cons, hs, okValue,
      List.append_assoc, List.singleton_append]

theorem runToolCalls_raised (env : LoopEnv) (pre : List ToolCall) :
    ∀ (bad : ToolCall) (post : List ToolCall) (hist : List Message) (e : String),
    (∀ tc ∈ pre, ∃ s, processCall env tc = HandlerOutcome.ok s) →
    processCall env bad = HandlerOutcome.raised e →
    runToolCalls env (pre ++ bad :: post) hist =
      (hist ++ pre.map
        (fun tc => toolResultMessage tc (okValue (processCall env tc))), some e) := by
  induction pre with
  | nil => intro bad post hist e _ hbad; simp [runToolCalls, hbad]
  | cons tc rest ih =>
    intro bad post hist e h hbad
    obtain ⟨s, hs⟩ := h tc (List.mem_cons_self _ _)
    have hrest := ih bad post (hist ++ [toolResultMessage tc s]) e
      (fun tc2 htc2 => h tc2 (List.mem_cons_of_mem _ htc2)) hbad
    have hstep : runToolCalls env ((tc :: rest) ++ bad :: post) hist =
        runToolCalls env (rest ++ bad :: post) (hist ++ [toolResultMessage tc s]) := by
      simp only [List.cons_append, runToolCalls, hs]
      rfl
    rw [hstep, hrest]
    simp [hs, okValue, List.append_assoc]

theorem runToolCalls_extends (env : LoopEnv) (calls : List ToolCall) :
    ∀ hist : List Message, ∃ tail, (runToolCalls env calls hist).1 = hist ++ tail := by
  induction calls with
  | nil => intro hist; exact ⟨[], by simp [runToolCalls]⟩
  | cons tc rest ih =>
    intro hist
    cases hp : processCall env tc with
    | ok s =>
      obtain ⟨t, ht⟩ := ih (hist ++ [toolResultMessage tc s])
      exact ⟨toolResultMessage tc s :: t,
        by simp only [runToolCalls, hp, ht, List.append_assoc, List.singleton_append]⟩
    | raised e => exact ⟨[], by simp [runToolCalls, hp]⟩

/-- `get_agent_response` only ever appends to the conversation history. -/
theorem get_agent_response_extends (env : LoopEnv) (hist : List Message) :
    ∃ tail, (get_agent_response env hist).history = hist ++ tail := by
  unfold get_agent_response
  cases hr : env.round1 hist with
  | error f => exact ⟨[], by simp⟩
  | ok turn =>
    cases he : turn.tool_calls.isEmpty with
    | true => exact ⟨[], by simp [he]⟩
    | false =>
      obtain ⟨t, ht⟩ :=
        runToolCalls_extends env turn.tool_calls (hist ++ [assistantTurnMessage turn])
      simp only [he, Bool.false_eq_true, if_false]
      rcases hrun : runToolCalls env turn.tool_calls
          (hist ++ [assistantTurnMessage turn]) with ⟨h2, opt⟩
      have hh2 : h2 = (hist ++ [assistantTurnMessage turn]) ++ t := by
        rw [hrun] at ht; exact ht
      cases opt with
      | some e =>
        exact ⟨assistantTurnMessage turn :: t,
          by simp [hh2, List.append_assoc, List.singleton_append]⟩
      | none =>
        cases henv : env.round2 h2 with
        | ok r =>
          refine ⟨assistantTurnMessage turn :: t, ?_⟩
          simp only [henv]
          simp [hh2]
        | error f =>
          refine ⟨assistantTurnMessage turn :: t, ?_⟩
          simp only [henv]
          simp [hh2]

theorem convInvariant_append (c t : List Message) (h : convInvariant c) :
    convInvariant (c ++ t) := by
  obtain ⟨hne, hhead⟩ := h
  cases c with
  | nil => exact absurd rfl hne
  | cons m rest =>
    refine ⟨by simp, ?_⟩
    simpa using hhead

/-!
Concrete environments used as witnesses and counterexamples.
-/

/-- A turn with two tool-call requests whose first handler raises at call
time (a missing-required-argument TypeError). -/
def envBatchRaise : LoopEnv :=
  { round1 := fun _ => Except.ok
      { content := "",
        tool_calls :=
          [{ id := "call_a", function_name := "append_to_sheet",
             function_arguments := "" },
           { id := "call_b", function_name := "get_sheet_url",
             function_arguments := "" }] },
    round2 := fun _ => Except.ok ("done"),
    decodeArgs := fun _ => Except.ok (),
    invoke := fun nm _ =>
      if nm == "append_to_sheet" then
        HandlerOutcome.raised ("append_to_sheet() missing 1 required positional argument")
      else HandlerOutcome.ok ("ok") }

/-- A turn with two tool-call requests whose handlers both return. -/
def envTwoCalls : LoopEnv :=
  { round1 := fun _ => Except.ok
      { content := "",
        tool_calls :=
          [{ id := "call_1", function_name := "get_sheet_url",
             function_arguments := "" },
           { id := "call_2", function_name := "delete_last_row",
             function_arguments := "" }] },
    round2 := fun _ => Except.ok ("done"),
    decodeArgs := fun _ => Except.ok (),
    invoke := fun nm _ => HandlerOutcome.ok (nm) }

def twoCallsTurn : ModelTurn :=
  { content := "",
    tool_calls :=
      [{ id := "call_1", function_name := "get_sheet_url",
         function_arguments := "" },
       { id := "call_2", function_name := "delete_last_row",
         function_arguments := "" }] }

/-- A model turn with no tool calls. -/
def envNoTools : LoopEnv :=
  { round1 := fun _ => Except.ok { content := "Hello!", tool_calls := [] },
    round2 := fun _ => Except.ok ("unused"),
    decodeArgs := fun _ => Except.ok (),
    invoke := fun _ _ => HandlerOutcome.ok ("unused") }

/-- A model service that raises RateLimitError on the first call. -/
def envQuota : LoopEnv :=
  { round1 := fun _ => Except.error ModelFailure.rateLimit,
    round2 := fun _ => Except.ok ("unused"),
    decodeArgs := fun _ => Except.ok (),
    invoke := fun _ _ => HandlerOutcome.ok ("unused") }

/-- A single tool-call request whose handler raises at call time. -/
def envMissingArg : LoopEnv :=
  { round1 := fun _ => Except.ok
      { content := "",
        tool_calls :=
          [{ id := "call_m", function_name := "append_to_sheet",
             function_arguments := "" }] },
    round2 := fun _ => Except.ok ("final"),
    decodeArgs := fun _ => Except.ok (),
    invoke := fun _ _ =>
      HandlerOutcome.raised ("append_to_sheet() missing 1 required positional argument: item_name") }

/-- A first tool call that succeeds, a second that raises, a third pending. -/
def envMidBatchRaise : LoopEnv :=
  { round1 := fun _ => Except.ok
      { content := "",
        tool_calls :=
          [{ id := "call_x", function_name := "get_sheet_url",
             function_arguments := "" },
           { id := "call_y", function_name := "update_specific_row",
             function_arguments := "" },
           { id := "call_z", function_name := "get_sheet_url",
             function_arguments := "" }] },
    round2 := fun _ => Except.ok ("final"),
    decodeArgs := fun _ => Except.ok (),
    invoke := fun nm _ =>
      if nm == "update_specific_row" then
        HandlerOutcome.raised ("update_specific_row() missing 1 required positional argument: row_id")
      else HandlerOutcome.ok ("https://docs.google.com/spreadsheets/d/x") }

def midBatchTurn : ModelTurn :=
  { content := "",
    tool_calls :=
      [{ id := "call_x", function_name := "get_sheet_url",
         function_arguments := "" },
       { id := "call_y", function_name := "update_specific_row",
         function_arguments := "" },
       { id := "call_z", function_name := "get_sheet_url",
         function_arguments := "" }] }

/-!
Claim theorems for the orchestration loop.
-/

/-- C1 (counterexample): a model turn with exactly two tool-call requests
whose first handler raises appends zero tool-role messages, not two: the
claim that the loop appends exactly one tool-role message per request fails
once a handler raises out of the dispatch loop. -/
theorem two_tool_calls_counterexample :
    (∃ turn, envBatchRaise.round1 [] = Except.ok turn ∧ turn.tool_calls.length = 2) ∧
    ((get_agent_response envBatchRaise []).history.filter
      (fun m => m.role.isTool)).length = 0 ∧
    ((get_agent_response envBatchRaise []).history.filter
      (fun m => m.role.isTool)).length ≠ 2 := by
  refine ⟨⟨_, rfl, rfl⟩, ?_, ?_⟩ <;> decide

/-- C1 (amended): when round 1 returns tool-call requests and every request's
argument decoding and handler invocation return normally, the loop appends
the assistant turn followed by exactly one tool-role message per request, in
request order, each carrying the `tool_call_id` of its originating request
(and each of those appended messages has role `tool`). -/
theorem tool_messages_one_per_request (env : LoopEnv) (hist : List Message)
    (turn : ModelTurn) (h1 : env.round1 hist = Except.ok turn)
    (h2 : turn.tool_calls ≠ [])
    (h3 : ∀ tc ∈ turn.tool_calls, ∃ s, processCall env tc = HandlerOutcome.ok s) :
    (get_agent_response env hist).history =
      hist ++ assistantTurnMessage turn ::
        turn.tool_calls.map
          (fun tc => toolResultMessage tc (okValue (processCall env tc))) ∧
    ((get_agent_response env hist).history.drop (hist.length + 1)).map
        Message.tool_call_id
      = turn.tool_calls.map (fun tc => some tc.id) ∧
    ∀ m ∈ (get_agent_response env hist).history.drop (hist.length + 1),
      m.role = Role.tool := by
  have hrun := runToolCalls_all_ok env turn.tool_calls
    (hist ++ [assistantTurnMessage turn]) h3
  have hne : turn.tool_calls.isEmpty = false := by
    cases hc : turn.tool_calls with
    | nil => exact absurd hc h2
    | cons a l => simp
  have hmain : (get_agent_response env hist).history =
      hist ++ assistantTurnMessage turn ::
        turn.tool_calls.map
          (fun tc => toolResultMessage tc (okValue (processCall env tc))) := by
    unfold get_agent_response
    rw [h1]
    simp only [hne, Bool.false_eq_true, if_false]
    rw [hrun]
    simp only [List.append_assoc, List.singleton_append]
    cases env.round2 (hist ++ assistantTurnMessage turn ::
      turn.tool_calls.map
        (fun tc => toolResultMessage tc (okValue (processCall env tc)))) <;> rfl
  have hdrop : (get_agent_response env hist).history.drop (hist.length + 1) =
      turn.tool_calls.map
        (fun tc => toolResultMessage tc (okValue (processCall env tc))) := by
    rw [hmain]
    have : hist ++ assistantTurnMessage turn ::
        turn.tool_calls.map
          (fun tc => toolResultMessage tc (okValue (processCall env tc)))
        = (hist ++ [assistantTurnMessage turn]) ++
          turn.tool_calls.map
            (fun tc => toolResultMessage tc (okValue (processCall env tc))) := by
      simp
    rw [this, List.drop_left']
    simp
  refine ⟨hmain, ?_, ?_⟩
  · rw [hdrop, List.map_map]
    rfl
  · intro m hm
    rw [hdrop] at hm
    obtain ⟨tc, _, rfl⟩ := List.mem_map.mp hm
    rfl

/-- C1 (witness for the amended theorem), at a concrete two-request turn. -/
theorem tool_messages_one_per_request_witness :
    (get_agent_response envTwoCalls []).history =
      [] ++ assistantTurnMessage twoCallsTurn ::
        twoCallsTurn.tool_calls.map
          (fun tc => toolResultMessage tc (okValue (processCall envTwoCalls tc))) ∧
    ((get_agent_response envTwoCalls []).history.drop
        ((List.length ([] : List Message)) + 1)).map Message.tool_call_id
      = twoCallsTurn.tool_calls.map (fun tc => some tc.id) ∧
    ∀ m ∈ (get_agent_response envTwoCalls []).history.drop
        ((List.length ([] : List Message)) + 1),
      m.role = Role.tool :=
  tool_messages_one_per_request envTwoCalls [] twoCallsTurn rfl (by decide)
    (fun tc htc => by
      fin_cases htc
      · exact ⟨"get_sheet_url", rfl⟩
      · exact ⟨"delete_last_row", rfl⟩)

/-- C2: a model turn with zero tool calls short-circuits the loop: the turn's
text is returned unchanged, the conversation history is untouched (so no
tool-role messages are appended), and exactly one model invocation occurs. -/
theorem no_tool_calls_short_circuit (env : LoopEnv) (hist : List Message)
    (turn : ModelTurn) (h1 : env.round1 hist = Except.ok turn)
    (h2 : turn.tool_calls = []) :
    get_agent_response env hist =
      { history := hist, reply := turn.content, modelCalls := 1 } := by
  unfold get_agent_response
  rw [h1]
  simp [h2]

/-- C2 (witness) at a concrete text-only turn. -/
theorem no_tool_calls_short_circuit_witness :
    get_agent_response envNoTools [] =
      { history := [], reply := "Hello!", modelCalls := 1 } :=
  no_tool_calls_short_circuit envNoTools []
    { content := "Hello!", tool_calls := [] } rfl rfl

/-- C3: when the round-1 model call fails, the result's history is the input
history (tool dispatch is never reached), exactly one model invocation is
attempted (round 2 is bypassed, no retry), and the reply is the fixed quota
advisory for RateLimitError, the fixed key advisory for AuthenticationError,
and an advisory embedding the error detail for any other failure. -/
theorem model_failure_short_circuit (env : LoopEnv) (hist : List Message)
    (f : ModelFailure) (h : env.round1 hist = Except.error f) :
    (get_agent_response env hist).history = hist ∧
    (get_agent_response env hist).modelCalls = 1 ∧
    (f = ModelFailure.rateLimit → (get_agent_response env hist).reply =
      "⚠️ Error: OpenAI API Quota Exceeded (429). Please check your billing details at platform.openai.com.") ∧
    (f = ModelFailure.authError → (get_agent_response env hist).reply =
      "⚠️ Error: OpenAI API Key is invalid. Please check your .env file.") ∧
    (∀ d, f = ModelFailure.other d → (get_agent_response env hist).reply =
      "⚠️ System error: " ++ d) := by
  unfold get_agent_response
  rw [h]
  refine ⟨rfl, rfl, ?_, ?_, ?_⟩
  · intro hf; subst hf; rfl
  · intro hf; subst hf; rfl
  · intro d hf; subst hf; rfl

/-- C3 (witness) at a concrete rate-limited call. -/
theorem model_failure_short_circuit_witness :
    (get_agent_response envQuota []).history = [] ∧
    (get_agent_response envQuota []).modelCalls = 1 ∧
    (ModelFailure.rateLimit = ModelFailure.rateLimit →
      (get_agent_response envQuota []).reply =
      "⚠️ Error: OpenAI API Quota Exceeded (429). Please check your billing details at platform.openai.com.") ∧
    (ModelFailure.rateLimit = ModelFailure.authError →
      (get_agent_response envQuota []).reply =
      "⚠️ Error: OpenAI API Key is invalid. Please check your .env file.") ∧
    (∀ d, ModelFailure.rateLimit = ModelFailure.other d →
      (get_agent_response envQuota []).reply = "⚠️ System error: " ++ d) :=
  model_failure_short_circuit envQuota [] ModelFailure.rateLimit rfl

/-- C4 (counterexample): a single tool-call request whose handler raises at
call time (missing required argument). The loop does not convert the
exception into an error-text tool-role ToolResult: zero tool messages are
appended, round 2 never runs, and the function returns the system-error
advisory instead. -/
theorem handler_raise_counterexample :
    (get_agent_response envMissingArg []).reply =
      "⚠️ System error: append_to_sheet() missing 1 required positional argument: item_name" ∧
    ((get_agent_response envMissingArg []).history.filter
      (fun m => m.role.isTool)).length = 0 ∧
    (get_agent_response envMissingArg []).modelCalls = 1 := by
  refine ⟨?_, ?_, ?_⟩ <;> decide

/-- C4 (amended): a tool-call request whose argument decoding or handler
invocation raises aborts the batch: the requests before it still yield one
tool-role message each, but the raising request yields none, the remaining
requests are not executed, round 2 does not run, and the whole call returns
the system-error advisory embedding the exception text. (Handlers in
tools.py catch exceptions inside their bodies and return error strings, so
only call-time errors such as a missing required argument raise.) -/
theorem handler_raise_aborts_batch (env : LoopEnv) (hist : List Message)
    (turn : ModelTurn) (pre : List ToolCall) (bad : ToolCall)
    (post : List ToolCall) (e : String)
    (h1 : env.round1 hist = Except.ok turn)
    (h2 : turn.tool_calls = pre ++ bad :: post)
    (h3 : ∀ tc ∈ pre, ∃ s, processCall env tc = HandlerOutcome.ok s)
    (h4 : processCall env bad = HandlerOutcome.raised e) :
    get_agent_response env hist =
      { history := hist ++ assistantTurnMessage turn ::
          pre.map (fun tc => toolResultMessage tc (okValue (processCall env tc))),
        reply := "⚠️ System error: " ++ e,
        modelCalls := 1 } := by
  have hrun := runToolCalls_raised env pre bad post
    (hist ++ [assistantTurnMessage turn]) e h3 h4
  have hne : turn.tool_calls.isEmpty = false := by
    rw [h2]
    cases pre <;> simp
  unfold get_agent_response
  rw [h1]
  simp only [hne, Bool.false_eq_true, if_false]
  rw [h2, hrun]
  simp [failureReply]

/-- C4 (witness for the amended theorem): in a three-request batch whose
second handler raises, exactly the first request's tool message is appended
and the system-error advisory is returned after one model call. -/
theorem handler_raise_aborts_batch_witness :
    get_agent_response envMidBatchRaise [] =
      { history := [] ++ assistantTurnMessage midBatchTurn ::
          [{ id := "call_x", function_name := "get_sheet_url",
             function_arguments := "" }].map
            (fun tc => toolResultMessage tc (okValue (processCall envMidBatchRaise tc))),
        reply := "⚠️ System error: " ++
          "update_specific_row() missing 1 required positional argument: row_id",
        modelCalls := 1 } :=
  handler_raise_aborts_batch envMidBatchRaise [] midBatchTurn
    [{ id := "call_x", function_name := "get_sheet_url", function_arguments := "" }]
    { id := "call_y", function_name := "update_specific_row", function_arguments := "" }
    [{ id := "call_z", function_name := "get_sheet_url", function_arguments := "" }]
    "update_specific_row() missing 1 required positional argument: row_id"
    rfl rfl
    (fun tc htc => by
      fin_cases htc
      exact ⟨"https://docs.google.com/spreadsheets/d/x", rfl⟩)
    rfl

/-- C5: a freshly created conversation (explicit /start or lazy
initialisation) satisfies the invariant — it is the one-element list holding
the system prompt — and the invariant (non-empty, first message has role
`system`) is preserved across a whole `handle_message` turn, which appends
the user message, everything `get_agent_response` appends, and the assistant
reply. -/
theorem conversation_head_system (env : LoopEnv) (sys userText : String)
    (stored : Option (List Message))
    (h : ∀ c, stored = some c → convInvariant c) :
    convInvariant (initConversation sys) ∧
    (∀ c m, convInvariant c → convInvariant (c ++ [m])) ∧
    convInvariant (handle_message_conversation env sys stored userText) := by
  have hinit : convInvariant (initConversation sys) := by
    refine ⟨by simp [initConversation], ?_⟩
    simp [initConversation]
  refine ⟨hinit, fun c m hc => convInvariant_append c [m] hc, ?_⟩
  cases stored with
  | none =>
    obtain ⟨tail, htail⟩ := get_agent_response_extends env
      (initConversation sys ++ [userMessage userText])
    simp only [handle_message_conversation]
    rw [htail]
    exact convInvariant_append _ _ (convInvariant_append _ _
      (convInvariant_append _ _ hinit))
  | some c =>
    have hc := h c rfl
    obtain ⟨tail, htail⟩ := get_agent_response_extends env
      (c ++ [userMessage userText])
    simp only [handle_message_conversation]
    rw [htail]
    exact convInvariant_append _ _ (convInvariant_append _ _
      (convInvariant_append _ _ hc))

/-- C5 (witness): a stored conversation holding just a system prompt keeps
the invariant across a concrete turn. -/
theorem conversation_head_system_witness :
    convInvariant (initConversation "You are an efficient Financial Assistant.") ∧
    (∀ c m, convInvariant c → convInvariant (c ++ [m])) ∧
    convInvariant (handle_message_conversation envNoTools
      "You are an efficient Financial Assistant."
      (some (initConversation "You are an efficient Financial Assistant.")) "hi") :=
  conversation_head_system envNoTools
    "You are an efficient Financial Assistant." "hi"
    (some (initConversation "You are an efficient Financial Assistant."))
    (fun c hc => by
      cases hc
      exact ⟨by simp [initConversation], by simp [initConversation]⟩)

/-!
Claim theorems for the ledger operations.
-/

/-- C6: `append_to_sheet` on a table of `n` rows appends exactly one row,
that new row is read back at 1-based index `n + 1` (position `n`), and the
returned message reports that same index after the "#" marker. -/
theorem append_reports_fresh_index (item amount category : String)
    (date : Option String) (currency note nh nf : String) (s : SheetState) :
    ∃ newRow,
      (append_to_sheet item amount category date currency note nh nf s).1.rows
        = s.rows ++ [newRow] ∧
      (append_to_sheet item amount category date currency note nh nf s).1.rows[s.rows.length]?
        = some newRow ∧
      ∃ a b, (append_to_sheet item amount category date currency note nh nf s).2
        = a ++ " #" ++ toString (s.rows.length + 1) ++ b := by
  refine ⟨[appendTimestamp date nh nf, item, amount ++ currency, category, note],
    rfl, ?_, ?_⟩
  · exact List.getElem?_concat_length _ _
  · refine ⟨"Saved: " ++ ((appendTimestamp date nh nf).splitOn (" ")).headD
      (appendTimestamp date nh nf),
      " " ++ item ++ " " ++ (amount ++ currency) ++ " (" ++ category ++ ")", ?_⟩
    simp [append_to_sheet, String.append_assoc]

/-- C9: `delete_specific_row` validates `1 ≤ row_id ≤ row_count + 5` (slack
5) and returns the bounds-error message with the table unchanged exactly
when validation fails; when validation passes it reports success, removing
the addressed data row (or touching nothing when `row_id` points past the
data into the slack zone); and a second delete of the same `row_id` can
fail with anything other than the success message only if `row_id` exceeds
the new row count. -/
theorem delete_specific_row_bounds (row_id : Int) (s : SheetState) :
    ((row_id < 1 ∨ (s.rows.length : Int) + 5 < row_id) →
      delete_specific_row row_id s =
        (s, "⚠️ Invalid Row ID: " ++ toString row_id ++ ". (Max is "
          ++ toString s.rows.length ++ ")")) ∧
    (1 ≤ row_id → row_id ≤ (s.rows.length : Int) + 5 →
      (delete_specific_row row_id s).2 =
        "✅ Deleted record #" ++ toString row_id ++ "." ∧
      (row_id ≤ (s.rows.length : Int) →
        (delete_specific_row row_id s).1.rows =
          s.rows.eraseIdx (row_id.toNat - 1)) ∧
      ((s.rows.length : Int) < row_id →
        (delete_specific_row row_id s).1 = s)) ∧
    (1 ≤ row_id → row_id ≤ (s.rows.length : Int) + 5 →
      (delete_specific_row (row_id) ((delete_specific_row row_id s).1)).2 ≠
        "✅ Deleted record #" ++ toString row_id ++ "." →
      ((delete_specific_row row_id s).1.rows.length : Int) < row_id) := by
  refine ⟨?_, ?_, ?_⟩
  · intro hout
    simp only [delete_specific_row]
    rw [if_pos hout]
  · intro hlo hhi
    have hout : ¬ (row_id < 1 ∨ (s.rows.length : Int) + 5 < row_id) := by omega
    by_cases hin : row_id ≤ (s.rows.length : Int)
    · simp only [delete_specific_row]
      rw [if_neg hout, if_pos hin]
      exact ⟨rfl, fun _ => rfl, fun hgt => absurd hin (by omega)⟩
    · simp only [delete_specific_row]
      rw [if_neg hout, if_neg hin]
      exact ⟨rfl, fun hle => absurd hle hin, fun _ => rfl⟩
  · intro hlo hhi hfail
    exfalso
    apply hfail
    have hout : ¬ (row_id < 1 ∨ (s.rows.length : Int) + 5 < row_id) := by omega
    by_cases hin : row_id ≤ (s.rows.length : Int)
    · have hfst : (delete_specific_row row_id s).1 =
          { rows := s.rows.eraseIdx (row_id.toNat - 1) } := by
        simp only [delete_specific_row]
        rw [if_neg hout, if_pos hin]
      rw [hfst]
      have hlen : (((s.rows.eraseIdx (row_id.toNat - 1)).length : Int)) =
          (s.rows.length : Int) - 1 := by
        have hlt : row_id.toNat - 1 < s.rows.length := by omega
        have hL := List.length_eraseIdx_of_lt hlt
        omega
      have hout2 : ¬ (row_id < 1 ∨
          ((s.rows.eraseIdx (row_id.toNat - 1)).length : Int) + 5 < row_id) := by
        omega
      simp only [delete_specific_row]
      rw [if_neg hout2]
      by_cases hin2 : row_id ≤ ((s.rows.eraseIdx (row_id.toNat - 1)).length : Int)
      · rw [if_pos hin2]
      · rw [if_neg hin2]
    · have hfst : (delete_specific_row row_id s).1 = s := by
        simp only [delete_specific_row]
        rw [if_neg hout, if_neg hin]
      rw [hfst]
      simp only [delete_specific_row]
      rw [if_neg hout, if_neg hin]

/-- C9 (witness) on a concrete four-row table with row_id 3: the delete
passes validation, reports success, and removes exactly row 3. -/
theorem delete_specific_row_bounds_witness :
    (delete_specific_row 3 { rows := [["a"], ["b"], ["c"], ["d"]] }).2 =
      "✅ Deleted record #" ++ toString (3 : Int) ++ "." ∧
    (delete_specific_row 3 { rows := [["a"], ["b"], ["c"], ["d"]] }).1.rows =
      [["a"], ["b"], ["d"]] := by
  have h := delete_specific_row_bounds 3 { rows := [["a"], ["b"], ["c"], ["d"]] }
  refine ⟨(h.2.1 (by decide) (by decide)).1, ?_⟩
  have h2 := (h.2.1 (by decide) (by decide)).2.1 (by decide)
  rw [h2]
  decide

/-- Setting index `i` of a list and reading it back at `i`. -/
theorem get?_set_self {α : Type} (l : List α) (i : Nat) (a : α)
    (h : i < l.length) : (l.set i a)[i]? = some a :=
  List.getElem?_set_eq_of_lt a h

/-- C10: when a (truthy) date argument is supplied, both `append_to_sheet`
and `update_specific_row` store as the timestamp cell the supplied date
concatenated with the current wall-clock time of day; for update, the row's
previous time-of-day (part of `c0`) is discarded, not preserved. -/
theorem date_overwrites_time_of_day
    (d item amount category currency note nh nf : String)
    (s : SheetState) (row_id : Nat) (c0 c1 c2 c3 c4 : String)
    (hd : d.isEmpty = false) (hid : 1 ≤ row_id)
    (hrow : s.rows.get? (row_id - 1) = some [c0, c1, c2, c3, c4])
    (hne : ([c0, c1, c2, c3, c4].all String.isEmpty) = false) :
    (append_to_sheet item amount category (some d) currency note nh nf s).1.rows.getLast?
      = some [d ++ " " ++ nh, item, amount ++ currency, category, note] ∧
    (update_specific_row row_id none none none (some d) currency none nh s).1.rows.get?
        (row_id - 1) = some [d ++ " " ++ nh, c1, c2, c3, c4] := by
  have hz : ¬ (row_id = 0) := by omega
  have hlt : row_id - 1 < s.rows.length := by
    rw [List.get?_eq_getElem?] at hrow
    exact (List.getElem?_eq_some.mp hrow).1
  constructor
  · simp only [append_to_sheet, appendTimestamp, hd, Bool.false_eq_true, if_false]
    exact List.getLast?_concat _
  · simp only [update_specific_row]
    rw [if_neg hz, hrow]
    simp only [hne, Bool.false_eq_true, if_false, padTo5, optTruthy, hd]
    simp only [List.length_cons, List.length_nil]
    norm_num
    exact get?_set_self _ _ _ hlt

/-- C10 (witness) on a concrete one-row sheet and both operations. -/
theorem date_overwrites_time_of_day_witness :
    (append_to_sheet "Lunch" "25" "Food" (some ("2026-01-21")) "€" "" "13:05:00"
        "unused"
        { rows := [["2026-01-01 10:00:00", "Coffee", "3.50€", "Food", "gift"]] }
      ).1.rows.getLast?
      = some ["2026-01-21" ++ " " ++ "13:05:00", "Lunch", "25" ++ "€", "Food", ""] ∧
    (update_specific_row 1 none none none (some ("2026-01-21")) "€" none "13:05:00"
        { rows := [["2026-01-01 10:00:00", "Coffee", "3.50€", "Food", "gift"]] }
      ).1.rows.get? (1 - 1)
      = some ["2026-01-21" ++ " " ++ "13:05:00", "Coffee", "3.50€", "Food", "gift"] :=
  date_overwrites_time_of_day "2026-01-21" "Lunch" "25" "Food" "€" "" "13:05:00"
    "unused"
    { rows := [["2026-01-01 10:00:00", "Coffee", "3.50€", "Food", "gift"]] }
    1 "2026-01-01 10:00:00" "Coffee" "3.50€" "Food" "gift"
    (by decide) (by decide) (by decide) (by decide)

/-- C7 (counterexample): providing `item_name` as the empty string does not
overwrite the item cell — Python truthiness also suppresses the overwrite
for empty text, so "only None/absence suppresses overwrite" is false. -/
theorem update_empty_string_counterexample :
    (update_specific_row 1 (some ("")) none none none "€" none "12:00:00"
        { rows := [["2026-01-01 10:00:00", "Coffee", "3.50€", "Food", "gift"]] }).1
      = { rows := [["2026-01-01 10:00:00", "Coffee", "3.50€", "Food", "gift"]] } ∧
    ("Coffee" : String) ≠ "" := by
  exact ⟨by decide, by decide⟩

/-- C7 (amended): `update_specific_row` reads the addressed row, pads it to
the 5 tracked columns, and overlays only the provided fields: with only
`row_id` and a non-empty `category`, the item, amount, timestamp and note
cells keep their pre-update values and the reported message shows the kept
item and amount; a provided amount is re-rendered as the amount text
concatenated with the currency (default "€" at the call site); and `None`,
absence, or — for the text fields — empty text suppresses the overwrite
(amount is overwritten whenever it is not `None`). -/
theorem update_partial_overlay (row_id : Nat) (hid : 1 ≤ row_id)
    (c0 c1 c2 c3 c4 : String) (s : SheetState)
    (hrow : s.rows.get? (row_id - 1) = some [c0, c1, c2, c3, c4])
    (hne : ([c0, c1, c2, c3, c4].all String.isEmpty) = false)
    (cat : String) (hcat : cat.isEmpty = false) (amt curr nh : String) :
    (update_specific_row row_id none none (some cat) none curr none nh s).1.rows.get?
        (row_id - 1) = some [c0, c1, c2, cat, c4] ∧
    (update_specific_row row_id none none (some cat) none curr none nh s).2 =
      "✅ Updated record #" ++ toString row_id ++ ": " ++ c1 ++ " " ++ c2
        ++ " (" ++ cat ++ ")" ∧
    (update_specific_row row_id none (some amt) none none curr none nh s).1.rows.get?
        (row_id - 1) = some [c0, c1, amt ++ curr, c3, c4] ∧
    (update_specific_row row_id (some ("")) none none none curr none nh s).1.rows.get?
        (row_id - 1) = some [c0, c1, c2, c3, c4] := by
  have hz : ¬ (row_id = 0) := by omega
  have hlt : row_id - 1 < s.rows.length := by
    rw [List.get?_eq_getElem?] at hrow
    exact (List.getElem?_eq_some.mp hrow).1
  refine ⟨?_, ?_, ?_, ?_⟩
  · simp only [update_specific_row]
    rw [if_neg hz, hrow]
    simp only [hne, Bool.false_eq_true, if_false, padTo5, optTruthy, hcat]
    simp only [List.length_cons, List.length_nil]
    norm_num
    exact get?_set_self _ _ _ hlt
  · simp only [update_specific_row]
    rw [if_neg hz, hrow]
    simp only [hne, Bool.false_eq_true, if_false, padTo5, optTruthy, hcat]
    simp only [List.length_cons, List.length_nil]
    norm_num
  · simp only [update_specific_row]
    rw [if_neg hz, hrow]
    simp only [hne, Bool.false_eq_true, if_false, padTo5, optTruthy]
    simp only [List.length_cons, List.length_nil]
    norm_num
    exact get?_set_self _ _ _ hlt
  · have hempty : (("" : String)).isEmpty = true := rfl
    simp only [update_specific_row]
    rw [if_neg hz, hrow]
    simp only [hne, Bool.false_eq_true, if_false, padTo5, optTruthy, hempty]
    simp only [List.length_cons, List.length_nil]
    norm_num
    exact get?_set_self _ _ _ hlt

/-- C7 (witness for the amended theorem) on a concrete one-row sheet with
category "Travel". -/
theorem update_partial_overlay_witness :
    (update_specific_row 1 none none (some ("Travel")) none "€" none "12:00:00"
        { rows := [["2026-01-01 10:00:00", "Coffee", "3.50€", "Food", "gift"]] }
      ).1.rows.get? (1 - 1)
      = some ["2026-01-01 10:00:00", "Coffee", "3.50€", "Travel", "gift"] ∧
    (update_specific_row 1 none none (some ("Travel")) none "€" none "12:00:00"
        { rows := [["2026-01-01 10:00:00", "Coffee", "3.50€", "Food", "gift"]] }).2 =
      "✅ Updated record #" ++ toString (1 : Nat) ++ ": " ++ "Coffee" ++ " "
        ++ "3.50€" ++ " (" ++ "Travel" ++ ")" ∧
    (update_specific_row 1 none (some ("50")) none none "€" none "12:00:00"
        { rows := [["2026-01-01 10:00:00", "Coffee", "3.50€", "Food", "gift"]] }
      ).1.rows.get? (1 - 1)
      = some ["2026-01-01 10:00:00", "Coffee", "50" ++ "€", "Food", "gift"] ∧
    (update_specific_row 1 (some ("")) none none none "€" none "12:00:00"
        { rows := [["2026-01-01 10:00:00", "Coffee", "3.50€", "Food", "gift"]] }
      ).1.rows.get? (1 - 1)
      = some ["2026-01-01 10:00:00", "Coffee", "3.50€", "Food", "gift"] :=
  update_partial_overlay 1 (by decide) "2026-01-01 10:00:00" "Coffee" "3.50€"
    "Food" "gift"
    { rows := [["2026-01-01 10:00:00", "Coffee", "3.50€", "Food", "gift"]] }
    (by decide) (by decide) "Travel" (by decide) "50" "€" "12:00:00"

/-- The accumulation loop computes the left fold of `Frac.add` over the
per-row contributions of exactly the included rows. -/
theorem totalLoop_eq_sum (sb eb : Option Nat) (rows : List (List String)) :
    ∀ acc : Frac, totalLoop sb eb rows acc =
      (rows.filterMap (rowIncludedValue sb eb)).foldl Frac.add acc := by
  induction rows with
  | nil => intro acc; simp [totalLoop]
  | cons row rest ih =>
    intro acc
    simp only [totalLoop, rowIncludedValue, List.filterMap_cons]
    by_cases h1 : row.length < 3
    · simp [h1, ih]
    · simp only [h1, if_false]
      cases hdt : parseStrictDateChars ((row.headD ("")).data.take 10) with
      | none => simp [ih]
      | some key =>
        cases hb : beforeStart sb key with
        | true => simp [hb, ih]
        | false =>
          cases ha : afterEnd eb key with
          | true => simp [ha, hb, ih]
          | false =>
            cases hv : parseCleanedFloat (cleanAmount (row.getD 2 (""))) with
            | none => simp [hb, ha, hv, ih]
            | some v => simp [hb, ha, hv, ih, List.foldl_cons]

/-- C8 (counterexample): a table holding a single parseable data row inside
the range returns the sentinel "0.00 (Sheet empty)" rather than the
formatted sum "3.50" — the sentinel branch triggers whenever the table has
at most one row, not only when it has no data rows. -/
theorem calculate_total_single_row_counterexample :
    calculate_total (some ("2026-01-01")) (some ("2026-12-31"))
        { rows := [["2026-01-05", "Coffee", "3.50€"]] } = "0.00 (Sheet empty)" ∧
    ("0.00 (Sheet empty)" : String) ≠ "3.50" := by
  exact ⟨by decide, by decide⟩

/-- C8 (amended): for a table with at least two rows and parseable (or
absent) bounds, `calculate_total` returns the two-fractional-digit format of
the sum over exactly those rows whose leading date-like substring parses
under the fixed format and falls inside the inclusive range and whose
cleaned amount text parses — rows failing either parse are skipped without
aborting the scan; for a table with at most one row it returns the sentinel
"0.00 (Sheet empty)". The spec's example holds: the given two rows with
range 2026-01-01..2026-01-31 yield "3.50". -/
theorem calculate_total_range_sum (sd ed : Option String) (sb eb : Option Nat)
    (s : SheetState) (hlen : 2 ≤ s.rows.length)
    (hs : parseBound sd = some sb) (he : parseBound ed = some eb) :
    calculate_total sd ed s =
      formatTwo ((s.rows.filterMap (rowIncludedValue sb eb)).foldl Frac.add
        { num := 0, den := 1 }) ∧
    calculate_total (some ("2026-01-01")) (some ("2026-01-31"))
        { rows := [["2026-01-05", "Coffee", "3.50€"], ["2026-02-01", "Rent", "800€"]] }
      = "3.50" := by
  constructor
  · unfold calculate_total
    rw [if_neg (by omega)]
    simp only [hs, he]
    rw [totalLoop_eq_sum]
  · decide

/-- C8 (witness for the amended theorem) at the spec's own two-row example. -/
theorem calculate_total_range_sum_witness :
    calculate_total (some ("2026-01-01")) (some ("2026-01-31"))
        { rows := [["2026-01-05", "Coffee", "3.50€"], ["2026-02-01", "Rent", "800€"]] }
      = formatTwo (([["2026-01-05", "Coffee", "3.50€"],
          ["2026-02-01", "Rent", "800€"]].filterMap
            (rowIncludedValue (some 20260101) (some 20260131))).foldl Frac.add
          { num := 0, den := 1 }) ∧
    calculate_total (some ("2026-01-01")) (some ("2026-01-31"))
        { rows := [["2026-01-05", "Coffee", "3.50€"], ["2026-02-01", "Rent", "800€"]] }
      = "3.50" :=
  calculate_total_range_sum (some ("2026-01-01")) (some ("2026-01-31"))
    (some 20260101) (some 20260131)
    { rows := [["2026-01-05", "Coffee", "3.50€"], ["2026-02-01", "Rent", "800€"]] }
    (by decide) (by decide) (by decide)

end FinBot
